import Mathlib

/-!
# Region registry (`regions.go`, package `countries`)

A shallow embedding of the region catalogue: the seven UN M.49 region codes, the
code-to-name switches, the validity predicate, the enumeration functions, the
name-to-code lookup and the `Value` / `Scan` persistence hooks.

Two identifiers used by `regions.go` are declared in another file of the package:

* `UnknownMsg`, the string returned for an unknown code.  Every function that reads
  it takes it as an explicit first argument, so results hold for whatever value the
  constant has.
* `textPrepare`, the normalisation applied by `RegionCodeByName`.  The lookup takes
  it as an explicit argument as well.
-/

/-- Go `string`, under a name that stays usable inside the `RegionCode` namespace
(where `String` denotes the method `RegionCode.String`). -/
abbrev GoString : Type := String

/-- Go `type RegionCode int64`.  No arithmetic is ever done on a code, so the carrier
is `Int`; every `int64` value is an `Int`. -/
abbrev RegionCode : Type := Int

/-- Go `type Region struct { Name string; Code RegionCode }`. -/
structure Region where
  Name : GoString
  Code : RegionCode
deriving DecidableEq, Repr

def RegionUnknown : RegionCode := 0
def RegionAF : RegionCode := 2
def RegionNA : RegionCode := 3
def RegionSA : RegionCode := 5
def RegionOC : RegionCode := 9
def RegionAN : RegionCode := 999
def RegionAS : RegionCode := 142
def RegionEU : RegionCode := 150

/-- Go `func (c RegionCode) String() string`: the switch, case by case in source order,
falling through to `UnknownMsg`. -/
def RegionCode.String (UnknownMsg : GoString) (c : RegionCode) : GoString :=
  if c = RegionAF then "Africa"
  else if c = RegionNA then "North America"
  else if c = RegionOC then "Oceania"
  else if c = RegionAN then "Antarctica"
  else if c = RegionAS then "Asia"
  else if c = RegionEU then "Europe"
  else if c = RegionSA then "South America"
  else UnknownMsg

/-- Go `func (c RegionCode) StringRus() string`. -/
def RegionCode.StringRus (UnknownMsg : GoString) (c : RegionCode) : GoString :=
  if c = RegionAF then "Африка"
  else if c = RegionNA then "Северная Америка"
  else if c = RegionOC then "Океания"
  else if c = RegionAN then "Антарктика"
  else if c = RegionAS then "Азия"
  else if c = RegionEU then "Европа"
  else if c = RegionSA then "Южная Америка"
  else UnknownMsg

/-- Go `func (c RegionCode) IsValid() bool { return c.String() != UnknownMsg }`. -/
def RegionCode.IsValid (UnknownMsg : GoString) (c : RegionCode) : Bool :=
  RegionCode.String UnknownMsg c != UnknownMsg

/-- Go `func TotalRegions() int { return 7 }`. -/
def TotalRegions : Int := 7

/-- Go `func (c RegionCode) Info() *Region`: a freshly allocated record, modelled by
its value. -/
def RegionCode.Info (UnknownMsg : GoString) (c : RegionCode) : Region :=
  { Name := RegionCode.String UnknownMsg c, Code := c }

/-- Go `func AllRegions() []RegionCode`: the slice literal, in source order. -/
def AllRegions : List RegionCode :=
  [RegionAF, RegionNA, RegionOC, RegionAN, RegionAS, RegionEU, RegionSA]

/-- Go `func AllRegionsInfo() []*Region`: starts from an empty slice and appends
`v.Info()` for each `v` ranging over `AllRegions()`. -/
def AllRegionsInfo (UnknownMsg : GoString) : List Region :=
  let all := AllRegions
  all.foldl (fun regions v => regions ++ [RegionCode.Info UnknownMsg v]) []

/-- Go `func RegionCodeByName(name string) RegionCode`: a switch on `textPrepare(name)`;
the cases are tried top to bottom and, inside a case, left to right.  `textPrepare` is
declared in another file of the package and is an argument here. -/
def RegionCodeByName (textPrepare : GoString → GoString) (name : GoString) : RegionCode :=
  let s := textPrepare name
  if s = "AF" ∨ s = "AFRICA" ∨ s = "AFRIKA" then RegionAF
  else if s = "NA" ∨ s = "NORTHAMERICA" ∨ s = "NORTHAMERIC" then RegionNA
  else if s = "SA" ∨ s = "SOUTHAMERICA" ∨ s = "SOUTHAMERIC" then RegionSA
  else if s = "OC" ∨ s = "OCEANIA" ∨ s = "OKEANIA" ∨ s = "OCEANIYA" ∨ s = "OKEANIYA"
    then RegionOC
  else if s = "AN" ∨ s = "ANTARCTICA" ∨ s = "ANTARCTIC" ∨ s = "ANTARKTICA"
      ∨ s = "ANTARKTIC" then RegionAN
  else if s = "AS" ∨ s = "ASIA" then RegionAS
  else if s = "EU" ∨ s = "EUROPE" ∨ s = "EUROPA" ∨ s = "EVROPA" then RegionEU
  else RegionUnknown

/-- The 25 strings that occur as case labels in the switch of `RegionCodeByName`. -/
def regionAliases : List GoString :=
  ["AF", "AFRICA", "AFRIKA",
   "NA", "NORTHAMERICA", "NORTHAMERIC",
   "SA", "SOUTHAMERICA", "SOUTHAMERIC",
   "OC", "OCEANIA", "OKEANIA", "OCEANIYA", "OKEANIYA",
   "AN", "ANTARCTICA", "ANTARCTIC", "ANTARKTICA", "ANTARKTIC",
   "AS", "ASIA",
   "EU", "EUROPE", "EUROPA", "EVROPA"]

/-- ASCII punctuation: the printable ASCII characters that are neither letters, digits
nor the space. -/
def isAsciiPunct (ch : Char) : Bool :=
  (33 ≤ ch.toNat && ch.toNat ≤ 47) || (58 ≤ ch.toNat && ch.toNat ≤ 64) ||
    (91 ≤ ch.toNat && ch.toNat ≤ 96) || (123 ≤ ch.toNat && ch.toNat ≤ 126)

/-- Modelled from the spec: `textPrepare` is declared outside `regions.go`.  The spec
describes it as the normalisation applied before the alias match: "case-folding,
whitespace/punctuation stripping".  The model drops every whitespace and punctuation
character and folds the remaining letters to upper case, the case of the alias table. -/
def textPrepareModel (text : GoString) : GoString :=
  String.mk ((text.toList.filter (fun ch => !(ch.isWhitespace || isAsciiPunct ch))).map
    Char.toUpper)

/-- The dynamic value of Go's `src interface{}` argument of `Scan`. -/
inductive Src where
  /-- the nil interface value -/
  | nil
  /-- a `*Region`; `none` is the nil pointer of that type -/
  | regionPtr (p : Option Region)
  /-- a `Region` value -/
  | region (v : Region)
  /-- a `[]byte` -/
  | bytes (b : List UInt8)
  /-- a `string` -/
  | string (s : GoString)
  /-- an `int64` -/
  | int64 (n : Int)
  /-- a `float64`, by its bit pattern -/
  | float64 (bits : Nat)
  /-- a `bool` -/
  | bool (b : Bool)
  /-- a value of any other dynamic type, identified by what `%T` prints for it -/
  | other (typeName : GoString)
deriving DecidableEq, Repr

/-- What `fmt`'s verb `%T` prints for the dynamic type of a source value. -/
def Src.typeName : Src → GoString
  | .nil => "<nil>"
  | .regionPtr _ => "*countries.Region"
  | .region _ => "countries.Region"
  | .bytes _ => "[]uint8"
  | .string _ => "string"
  | .int64 _ => "int64"
  | .float64 _ => "float64"
  | .bool _ => "bool"
  | .other t => t

/-- How a call of `Scan` ends: it returns, leaving the receiver pointing at `dest`
(`none` for a nil receiver) and yielding `err` (`none` for a nil error), or it panics. -/
inductive ScanOutcome where
  | returned (dest : Option Region) (err : Option GoString)
  | panicked
deriving DecidableEq, Repr

/-- Go `func (r *Region) Scan(src interface{}) error`.  The receiver is `none` for a nil
pointer and `some cur` for a pointer to a Region holding `cur`.  The assignment `r = nil`
of the `case nil` branch rebinds the local pointer only; `*r = *src` dereferences `src`
and panics when it is a nil `*Region`. -/
def Region.Scan (r : Option Region) (src : Src) : ScanOutcome :=
  match r with
  | none => .returned none (some "countries::Scan: Region scan err: region == nil")
  | some cur =>
    match src with
    | .regionPtr (some s) => .returned (some s) none
    | .regionPtr none => .panicked
    | .region s => .returned (some s) none
    | .nil => .returned (some cur) none
    | other =>
      .returned (some cur)
        (some ("countries::Scan: Region scan err: unexpected value of type "
          ++ other.typeName ++ " for countries.Region"))

/-- Go `func (r Region) Value() (driver.Value, error) { return json.Marshal(r) }`.
`json.Marshal` belongs to the standard library and is an argument: it yields the bytes
of the encoding or an error, and `Value` hands on that `[]byte` as the `driver.Value`. -/
def Region.Value (jsonMarshal : Region → Except GoString (List UInt8)) (r : Region) :
    Except GoString Src :=
  match jsonMarshal r with
  | .ok b => .ok (Src.bytes b)
  | .error e => .error e

/-- The UTF-8 bytes of the JSON object with the members Name = "Europe" and Code = 150,
in that order and without blanks: what `json.Marshal` yields for the Region with Name
"Europe" and Code 150. -/
def europeJSON : List UInt8 :=
  "\x7b\"Name\":\"Europe\",\"Code\":150\x7d".toUTF8.toList

/-- The case labels of the switch of `RegionCodeByName` that lead to the code `c`: the
labels, in source order, on which the switch itself (run on the label as the normalised
string) returns `c`. -/
def aliasesOf (c : RegionCode) : List GoString :=
  regionAliases.filter (fun s => RegionCodeByName (fun t => t) s = c)

/-! ## Helper lemmas on the name switches -/

theorem mem_AllRegions_iff (c : RegionCode) :
    c ∈ AllRegions ↔ c = 2 ∨ c = 3 ∨ c = 9 ∨ c = 999 ∨ c = 142 ∨ c = 150 ∨ c = 5 := by
  simp [AllRegions, RegionAF, RegionNA, RegionOC, RegionAN, RegionAS, RegionEU, RegionSA]

theorem String_of_not_mem (U : String) (c : RegionCode) (h : c ∉ AllRegions) :
    RegionCode.String U c = U := by
  rw [mem_AllRegions_iff] at h
  simp only [not_or] at h
  obtain ⟨h2, h3, h9, h999, h142, h150, h5⟩ := h
  simp [RegionCode.String, RegionAF, RegionNA, RegionOC, RegionAN, RegionAS, RegionEU,
    RegionSA, h2, h3, h9, h999, h142, h150, h5]

theorem StringRus_of_not_mem (U : String) (c : RegionCode) (h : c ∉ AllRegions) :
    RegionCode.StringRus U c = U := by
  rw [mem_AllRegions_iff] at h
  simp only [not_or] at h
  obtain ⟨h2, h3, h9, h999, h142, h150, h5⟩ := h
  simp [RegionCode.StringRus, RegionAF, RegionNA, RegionOC, RegionAN, RegionAS, RegionEU,
    RegionSA, h2, h3, h9, h999, h142, h150, h5]

theorem String_mem_names (U : String) (c : RegionCode) (h : c ∈ AllRegions) :
    RegionCode.String U c ∈
      ["Africa", "North America", "Oceania", "Antarctica", "Asia", "Europe",
        "South America"] := by
  rw [mem_AllRegions_iff] at h
  rcases h with h | h | h | h | h | h | h <;> subst h <;>
    simp [RegionCode.String, RegionAF, RegionNA, RegionOC, RegionAN, RegionAS, RegionEU,
      RegionSA]

theorem StringRus_mem_names (U : String) (c : RegionCode) (h : c ∈ AllRegions) :
    RegionCode.StringRus U c ∈
      ["Африка", "Северная Америка", "Океания", "Антарктика", "Азия", "Европа",
        "Южная Америка"] := by
  rw [mem_AllRegions_iff] at h
  rcases h with h | h | h | h | h | h | h <;> subst h <;>
    simp [RegionCode.StringRus, RegionAF, RegionNA, RegionOC, RegionAN, RegionAS, RegionEU,
      RegionSA]

theorem IsValid_eq_true_iff (U : String) (c : RegionCode) :
    RegionCode.IsValid U c = true ↔ RegionCode.String U c ≠ U := by
  simp [RegionCode.IsValid]

theorem IsValid_eq_false_iff (U : String) (c : RegionCode) :
    RegionCode.IsValid U c = false ↔ RegionCode.String U c = U := by
  simp [RegionCode.IsValid]

/-! ## Claims -/

/-- C1: for every code that is not one of 2, 3, 5, 9, 142, 150, 999 (zero and negative
values included), `IsValid` is false and both `String` and `StringRus` return
`UnknownMsg`, whatever the value of that constant. -/
theorem C1_unknown_codes (UnknownMsg : String) (c : RegionCode)
    (h : c ∉ [2, 3, 5, 9, 142, 150, 999]) :
    RegionCode.IsValid UnknownMsg c = false ∧
      RegionCode.String UnknownMsg c = UnknownMsg ∧
      RegionCode.StringRus UnknownMsg c = UnknownMsg := by
  have hc : c ∉ AllRegions := by
    intro hm
    rw [mem_AllRegions_iff] at hm
    apply h
    simp only [List.mem_cons, List.mem_singleton]
    tauto
  exact ⟨(IsValid_eq_false_iff _ _).2 (String_of_not_mem _ _ hc), String_of_not_mem _ _ hc,
    StringRus_of_not_mem _ _ hc⟩

theorem C1_unknown_codes_witness :
    (-7 : RegionCode) ∉ [2, 3, 5, 9, 142, 150, 999] ∧
      RegionCode.IsValid "Unknown" (-7) = false ∧
      RegionCode.String "Unknown" (-7) = "Unknown" ∧
      RegionCode.StringRus "Unknown" (-7) = "Unknown" :=
  ⟨by decide, C1_unknown_codes "Unknown" (-7) (by decide)⟩

/-- C2: for each of the seven defined codes (RegionAF = 2, RegionNA = 3, RegionSA = 5,
RegionOC = 9, RegionAS = 142, RegionEU = 150, RegionAN = 999) `IsValid` is true and
`String` and `StringRus` both return a name different from `UnknownMsg`.  `UnknownMsg`
is declared outside `regions.go`; it is assumed to be none of the fourteen region names
of the two switches. -/
theorem C2_defined_codes (UnknownMsg : String)
    (hEn : UnknownMsg ∉ ["Africa", "North America", "Oceania", "Antarctica", "Asia",
      "Europe", "South America"])
    (hRu : UnknownMsg ∉ ["Африка", "Северная Америка", "Океания", "Антарктика", "Азия",
      "Европа", "Южная Америка"]) :
    [RegionAF, RegionNA, RegionSA, RegionOC, RegionAS, RegionEU, RegionAN]
        = [2, 3, 5, 9, 142, 150, 999] ∧
      ∀ c ∈ [RegionAF, RegionNA, RegionSA, RegionOC, RegionAS, RegionEU, RegionAN],
        RegionCode.IsValid UnknownMsg c = true ∧
          RegionCode.String UnknownMsg c ≠ UnknownMsg ∧
          RegionCode.StringRus UnknownMsg c ≠ UnknownMsg := by
  refine ⟨rfl, ?_⟩
  intro c hc
  have hm : c ∈ AllRegions := by
    rw [mem_AllRegions_iff]
    simp only [List.mem_cons, List.mem_singleton, RegionAF, RegionNA, RegionSA, RegionOC,
      RegionAS, RegionEU, RegionAN, List.mem_nil_iff, or_false] at hc
    tauto
  have h1 : RegionCode.String UnknownMsg c ≠ UnknownMsg := by
    intro h
    exact hEn (h ▸ String_mem_names UnknownMsg c hm)
  have h2 : RegionCode.StringRus UnknownMsg c ≠ UnknownMsg := by
    intro h
    exact hRu (h ▸ StringRus_mem_names UnknownMsg c hm)
  exact ⟨(IsValid_eq_true_iff _ _).2 h1, h1, h2⟩

theorem C2_defined_codes_witness :
    [RegionAF, RegionNA, RegionSA, RegionOC, RegionAS, RegionEU, RegionAN]
        = [2, 3, 5, 9, 142, 150, 999] ∧
      ∀ c ∈ [RegionAF, RegionNA, RegionSA, RegionOC, RegionAS, RegionEU, RegionAN],
        RegionCode.IsValid "Unknown" c = true ∧
          RegionCode.String "Unknown" c ≠ "Unknown" ∧
          RegionCode.StringRus "Unknown" c ≠ "Unknown" :=
  C2_defined_codes "Unknown" (by decide) (by decide)

/-- C3: `AllRegions()` enumerates exactly the valid codes, each once: a code occurs in
the list if and only if `IsValid` is true for it, and the list has no duplicate.
`UnknownMsg` is declared outside `regions.go`; it is assumed to be none of the seven
English region names (otherwise the code bearing that name would test invalid). -/
theorem C3_AllRegions_exactly_valid (UnknownMsg : String)
    (hEn : UnknownMsg ∉ ["Africa", "North America", "Oceania", "Antarctica", "Asia",
      "Europe", "South America"]) :
    (∀ c : RegionCode, c ∈ AllRegions ↔ RegionCode.IsValid UnknownMsg c = true) ∧
      AllRegions.Nodup ∧ ∀ c : RegionCode, AllRegions.count c ≤ 1 := by
  have hnd : AllRegions.Nodup := by decide
  refine ⟨?_, hnd, fun c => List.nodup_iff_count_le_one.1 hnd c⟩
  intro c
  rw [IsValid_eq_true_iff]
  constructor
  · intro hm h
    exact hEn (h ▸ String_mem_names UnknownMsg c hm)
  · intro h
    by_contra hm
    exact h (String_of_not_mem UnknownMsg c hm)

theorem C3_AllRegions_exactly_valid_witness :
    (∀ c : RegionCode, c ∈ AllRegions ↔ RegionCode.IsValid "Unknown" c = true) ∧
      AllRegions.Nodup ∧ ∀ c : RegionCode, AllRegions.count c ≤ 1 :=
  C3_AllRegions_exactly_valid "Unknown" (by decide)

/-- C4: `TotalRegions()` equals the length of `AllRegions()`, which equals the length of
`AllRegionsInfo()`, and all three are 7. -/
theorem C4_counts_agree (UnknownMsg : String) :
    TotalRegions = (AllRegions.length : Int) ∧
      AllRegions.length = (AllRegionsInfo UnknownMsg).length ∧
      TotalRegions = 7 ∧ AllRegions.length = 7 ∧ (AllRegionsInfo UnknownMsg).length = 7 := by
  refine ⟨rfl, rfl, rfl, rfl, rfl⟩

/-- C5: `AllRegionsInfo()` is the parallel list of `AllRegions()`: same length and, at
every index `i`, its element is `AllRegions()[i].Info()`, whose `Code` is
`AllRegions()[i]` and whose `Name` is that code's English name. -/
theorem C5_AllRegionsInfo_parallel (UnknownMsg : String) :
    (AllRegionsInfo UnknownMsg).length = AllRegions.length ∧
      ∀ i : Fin AllRegions.length,
        (AllRegionsInfo UnknownMsg)[i.val]? = some (RegionCode.Info UnknownMsg (AllRegions.get i)) ∧
          (RegionCode.Info UnknownMsg (AllRegions.get i)).Code = AllRegions.get i ∧
          (RegionCode.Info UnknownMsg (AllRegions.get i)).Name
            = RegionCode.String UnknownMsg (AllRegions.get i) := by
  refine ⟨rfl, ?_⟩
  intro i
  refine ⟨?_, rfl, rfl⟩
  have h : AllRegionsInfo UnknownMsg = AllRegions.map (RegionCode.Info UnknownMsg) := rfl
  rw [h, List.getElem?_map, List.getElem?_eq_getElem i.isLt]
  rfl

/-- C6: `Info` is a faithful projection: for every code `c`, valid or not,
`c.Info().Code = c` and `c.Info().Name = c.String()`; for an unknown code (one outside
`AllRegions()`, or equivalently one for which `IsValid` is false) the name is
`UnknownMsg`. -/
theorem C6_Info_projection (UnknownMsg : String) (c : RegionCode) :
    (RegionCode.Info UnknownMsg c).Code = c ∧
      (RegionCode.Info UnknownMsg c).Name = RegionCode.String UnknownMsg c ∧
      (c ∉ AllRegions → (RegionCode.Info UnknownMsg c).Name = UnknownMsg) ∧
      (RegionCode.IsValid UnknownMsg c = false →
        (RegionCode.Info UnknownMsg c).Name = UnknownMsg) := by
  refine ⟨rfl, rfl, ?_, ?_⟩
  · intro h
    exact String_of_not_mem UnknownMsg c h
  · intro h
    exact (IsValid_eq_false_iff UnknownMsg c).1 h

theorem C6_Info_projection_witness :
    RegionCode.Info "Unknown" RegionEU = { Name := "Europe", Code := 150 } ∧
      RegionCode.Info "Unknown" RegionUnknown = { Name := "Unknown", Code := 0 } ∧
      (RegionCode.Info "Unknown" 4).Name = "Unknown" ∧
      (RegionCode.Info "Unknown" (-1)).Name = "Unknown" :=
  ⟨by decide, by decide, (C6_Info_projection "Unknown" 4).2.2.1 (by decide),
    (C6_Info_projection "Unknown" (-1)).2.2.2 (by decide)⟩

/-! ## Name lookup -/

theorem RegionCodeByName_of_not_alias (textPrepare : String → String) (name : String)
    (h : textPrepare name ∉ regionAliases) :
    RegionCodeByName textPrepare name = RegionUnknown := by
  simp only [regionAliases, List.mem_cons, List.mem_singleton, List.mem_nil_iff, or_false,
    not_or] at h
  obtain ⟨a1, a2, a3, n1, n2, n3, s1, s2, s3, o1, o2, o3, o4, o5, t1, t2, t3, t4, t5,
    i1, i2, e1, e2, e3, e4⟩ := h
  simp [RegionCodeByName, a1, a2, a3, n1, n2, n3, s1, s2, s3, o1, o2, o3, o4, o5, t1, t2,
    t3, t4, t5, i1, i2, e1, e2, e3, e4]

theorem RegionCodeByName_of_EU_alias (textPrepare : String → String) (name : String)
    (h : textPrepare name ∈ ["EU", "EUROPE", "EUROPA", "EVROPA"]) :
    RegionCodeByName textPrepare name = RegionEU := by
  simp only [List.mem_cons, List.mem_singleton, List.mem_nil_iff, or_false] at h
  rcases h with h | h | h | h <;> simp only [RegionCodeByName, h] <;> decide

/-- C7: `RegionCodeByName` resolves "eu", "EU", "Europe", "europa", "EUROPE", "EUROPA"
and "EVROPA" all to RegionEU (150).  In the code, every name whose normalised form is one
of the case labels "EU", "EUROPE", "EUROPA", "EVROPA" yields RegionEU; under the
normalisation the spec describes, the seven spellings have such normalised forms. -/
theorem C7_Europe_spellings :
    RegionEU = 150 ∧
      (∀ (textPrepare : String → String) (name : String),
        textPrepare name ∈ ["EU", "EUROPE", "EUROPA", "EVROPA"] →
          RegionCodeByName textPrepare name = RegionEU) ∧
      RegionCodeByName textPrepareModel "eu" = RegionEU ∧
      RegionCodeByName textPrepareModel "EU" = RegionEU ∧
      RegionCodeByName textPrepareModel "Europe" = RegionEU ∧
      RegionCodeByName textPrepareModel "europa" = RegionEU ∧
      RegionCodeByName textPrepareModel "EUROPE" = RegionEU ∧
      RegionCodeByName textPrepareModel "EUROPA" = RegionEU ∧
      RegionCodeByName textPrepareModel "EVROPA" = RegionEU := by
  refine ⟨rfl, RegionCodeByName_of_EU_alias, ?_, ?_, ?_, ?_, ?_, ?_, ?_⟩ <;> decide

theorem C7_Europe_spellings_witness :
    textPrepareModel " Evropa! " ∈ ["EU", "EUROPE", "EUROPA", "EVROPA"] ∧
      RegionCodeByName textPrepareModel " Evropa! " = RegionEU :=
  ⟨by decide, C7_Europe_spellings.2.1 textPrepareModel " Evropa! " (by decide)⟩

/-- C8: whenever the normalised form of the input is none of the 25 case labels of the
switch, `RegionCodeByName` returns RegionUnknown (0), whatever `textPrepare` computes;
in particular, under the normalisation the spec describes, "not-a-region" resolves to
RegionUnknown. -/
theorem C8_no_alias_gives_unknown :
    RegionUnknown = 0 ∧
      (∀ (textPrepare : String → String) (name : String),
        textPrepare name ∉ regionAliases →
          RegionCodeByName textPrepare name = RegionUnknown) ∧
      RegionCodeByName textPrepareModel "not-a-region" = RegionUnknown :=
  ⟨rfl, RegionCodeByName_of_not_alias, by decide⟩

theorem C8_no_alias_gives_unknown_witness :
    textPrepareModel "not-a-region" ∉ regionAliases ∧
      RegionCodeByName textPrepareModel "not-a-region" = RegionUnknown ∧
      RegionCodeByName (fun s => s) "europe" = RegionUnknown :=
  ⟨by decide, C8_no_alias_gives_unknown.2.1 textPrepareModel "not-a-region" (by decide),
    C8_no_alias_gives_unknown.2.1 (fun s => s) "europe" (by decide)⟩

/-! ## Persistence hooks -/

/-- C9 (as stated, refuted): take the Region `r` with Name "Europe" and Code 150, and a
destination holding the zero Region.  Whatever bytes the encoder yields, `Scan` of the
value returned by `r.Value()` does not return a nil error with the destination equal to
`r`; on the actual encoding it returns the unexpected-type error and leaves the
destination as it was. -/
theorem C9_roundtrip_counterexample :
    (¬ ∃ (jsonMarshal : Region → Except String (List UInt8)) (v : Src),
        Region.Value jsonMarshal { Name := "Europe", Code := RegionEU } = .ok v ∧
          Region.Scan (some { Name := "", Code := RegionUnknown }) v
            = .returned (some { Name := "Europe", Code := RegionEU }) none) ∧
      Region.Value (fun _ => .ok europeJSON) { Name := "Europe", Code := RegionEU }
        = .ok (Src.bytes europeJSON) ∧
      Region.Scan (some { Name := "", Code := RegionUnknown }) (Src.bytes europeJSON)
        = .returned (some { Name := "", Code := RegionUnknown })
            (some "countries::Scan: Region scan err: unexpected value of type []uint8 for countries.Region") := by
  refine ⟨?_, rfl, rfl⟩
  rintro ⟨jm, v, hv, hs⟩
  unfold Region.Value at hv
  cases hj : jm { Name := "Europe", Code := RegionEU } with
  | error e => rw [hj] at hv; cases hv
  | ok b =>
    rw [hj] at hv
    cases hv
    simp [Region.Scan] at hs

/-- C9 (amended): encode-then-decode does not go through `Scan`.  For every Region `r`
and every non-nil destination holding `d`, when `r.Value()` succeeds its result is a
byte slice, and `Scan` of it returns the non-nil error "unexpected value of type []uint8
for countries.Region" and leaves the destination holding `d`. -/
theorem C9_Scan_rejects_Value (jsonMarshal : Region → Except String (List UInt8))
    (r d : Region) (v : Src) (h : Region.Value jsonMarshal r = .ok v) :
    (∃ b, jsonMarshal r = .ok b ∧ v = Src.bytes b) ∧
      Region.Scan (some d) v
        = .returned (some d)
            (some "countries::Scan: Region scan err: unexpected value of type []uint8 for countries.Region") := by
  unfold Region.Value at h
  cases hj : jsonMarshal r with
  | error e => rw [hj] at h; cases h
  | ok b =>
    rw [hj] at h
    cases h
    exact ⟨⟨b, rfl, rfl⟩, rfl⟩

theorem C9_Scan_rejects_Value_witness :
    Region.Value (fun _ => .ok europeJSON) { Name := "Europe", Code := 150 }
        = .ok (Src.bytes europeJSON) ∧
      ((∃ b, (fun _ => .ok europeJSON : Region → Except String (List UInt8))
            { Name := "Europe", Code := 150 } = .ok b ∧ Src.bytes europeJSON = Src.bytes b) ∧
        Region.Scan (some { Name := "Asia", Code := 142 }) (Src.bytes europeJSON)
          = .returned (some { Name := "Asia", Code := 142 })
              (some "countries::Scan: Region scan err: unexpected value of type []uint8 for countries.Region")) :=
  ⟨rfl, C9_Scan_rejects_Value (fun _ => .ok europeJSON) { Name := "Europe", Code := 150 }
    { Name := "Asia", Code := 142 } (Src.bytes europeJSON) rfl⟩

/-- C10: on a nil destination, `Scan` returns the non-nil error
"countries::Scan: Region scan err: region == nil" for every source value (nil, a Region,
a `*Region`, nil or not, or any other type); it returns before looking at the source, so
it never panics, and the destination is still nil afterwards. -/
theorem C10_Scan_nil_destination (src : Src) :
    Region.Scan none src
        = .returned none (some "countries::Scan: Region scan err: region == nil") ∧
      (∃ e, Region.Scan none src = .returned none (some e)) :=
  ⟨rfl, _, rfl⟩

/-- C11: for a non-nil destination holding `d` and a source whose dynamic type is none of
Region, `*Region` or nil (a string, an int64, a byte slice, ...), `Scan` returns the
non-nil error naming the received type and leaves the destination holding `d`, with the
same Name and Code. -/
theorem C11_Scan_unsupported_type (d : Region) (src : Src)
    (hnil : src ≠ Src.nil) (hptr : ∀ p, src ≠ Src.regionPtr p)
    (hval : ∀ v, src ≠ Src.region v) :
    Region.Scan (some d) src
        = .returned (some d)
            (some ("countries::Scan: Region scan err: unexpected value of type "
              ++ src.typeName ++ " for countries.Region")) ∧
      (∃ e, Region.Scan (some d) src = .returned (some d) (some e)) := by
  cases src with
  | nil => exact absurd rfl hnil
  | regionPtr p => exact absurd rfl (hptr p)
  | region v => exact absurd rfl (hval v)
  | bytes b => exact ⟨rfl, _, rfl⟩
  | string s => exact ⟨rfl, _, rfl⟩
  | int64 n => exact ⟨rfl, _, rfl⟩
  | float64 bits => exact ⟨rfl, _, rfl⟩
  | bool b => exact ⟨rfl, _, rfl⟩
  | other t => exact ⟨rfl, _, rfl⟩

theorem C11_Scan_unsupported_type_witness :
    Region.Scan (some { Name := "Asia", Code := 142 }) (Src.string "Europe")
        = .returned (some { Name := "Asia", Code := 142 })
            (some ("countries::Scan: Region scan err: unexpected value of type "
              ++ (Src.string "Europe").typeName ++ " for countries.Region")) ∧
      (∃ e, Region.Scan (some { Name := "Asia", Code := 142 }) (Src.string "Europe")
        = .returned (some { Name := "Asia", Code := 142 }) (some e)) :=
  C11_Scan_unsupported_type { Name := "Asia", Code := 142 } (Src.string "Europe")
    (by decide) (fun _ => by simp) (fun _ => by simp)

/-- C12: for a non-nil destination holding `d`, `Scan(nil)` returns a nil error and
leaves the destination holding `d`, with the same Name and Code. -/
theorem C12_Scan_nil_source (d : Region) :
    Region.Scan (some d) Src.nil = .returned (some d) none :=
  rfl

/-- C13: reconstruction from an already-typed instance: for a non-nil destination
holding `d` and a source that is the Region value `s` or a `*Region` pointing at `s`,
`Scan` returns a nil error and the destination then holds `s` (same Name and Code). -/
theorem C13_Scan_typed_instance (d s : Region) :
    Region.Scan (some d) (Src.region s) = .returned (some s) none ∧
      Region.Scan (some d) (Src.regionPtr (some s)) = .returned (some s) none :=
  ⟨rfl, rfl⟩

/-! ## The alias table -/

theorem RegionCodeByName_eq_iff_mem_aliasesOf (textPrepare : String → String)
    (name : String) (c : RegionCode) (hc : c ≠ RegionUnknown) :
    RegionCodeByName textPrepare name = c ↔ textPrepare name ∈ aliasesOf c := by
  have hid : RegionCodeByName (fun t => t) (textPrepare name)
      = RegionCodeByName textPrepare name := rfl
  simp only [aliasesOf, List.mem_filter, decide_eq_true_eq, hid]
  constructor
  · intro h
    refine ⟨?_, h⟩
    by_contra hn
    exact hc (h.symm.trans (RegionCodeByName_of_not_alias textPrepare name hn))
  · exact fun h => h.2

theorem aliasesOf_values :
    aliasesOf RegionAF = ["AF", "AFRICA", "AFRIKA"] ∧
      aliasesOf RegionNA = ["NA", "NORTHAMERICA", "NORTHAMERIC"] ∧
      aliasesOf RegionSA = ["SA", "SOUTHAMERICA", "SOUTHAMERIC"] ∧
      aliasesOf RegionOC = ["OC", "OCEANIA", "OKEANIA", "OCEANIYA", "OKEANIYA"] ∧
      aliasesOf RegionAN = ["AN", "ANTARCTICA", "ANTARCTIC", "ANTARKTICA", "ANTARKTIC"] ∧
      aliasesOf RegionAS = ["AS", "ASIA"] ∧
      aliasesOf RegionEU = ["EU", "EUROPE", "EUROPA", "EVROPA"] := by
  refine ⟨?_, ?_, ?_, ?_, ?_, ?_, ?_⟩ <;> decide

/-- C14 (as stated, refuted): Asia (RegionAS = 142, a code of `AllRegions()`) has only two
aliases.  The switch returns RegionAS exactly when the normalised string is "AS" or
"ASIA", so the number of distinct strings mapped to it is 2, below 3. -/
theorem C14_Asia_has_two_aliases :
    RegionAS ∈ AllRegions ∧
      aliasesOf RegionAS = ["AS", "ASIA"] ∧
      (aliasesOf RegionAS).Nodup ∧
      (aliasesOf RegionAS).length = 2 ∧
      ¬ (3 ≤ (aliasesOf RegionAS).length) ∧
      (∀ (textPrepare : String → String) (name : String),
        RegionCodeByName textPrepare name = RegionAS ↔
          textPrepare name = "AS" ∨ textPrepare name = "ASIA") := by
  have hv : aliasesOf RegionAS = ["AS", "ASIA"] := aliasesOf_values.2.2.2.2.2.1
  refine ⟨by decide, hv, ?_, ?_, ?_, ?_⟩
  · rw [hv]; decide
  · rw [hv]; rfl
  · rw [hv]; decide
  · intro tp name
    rw [RegionCodeByName_eq_iff_mem_aliasesOf tp name RegionAS (by decide), hv]
    simp

/-- C14 (amended): in the alias table of `RegionCodeByName` every one of the seven
regions has between 2 and 7 aliases.  For each code `c` of `AllRegions()` the strings the
switch maps to `c` are exactly the members of `aliasesOf c`, which are pairwise distinct
and number at least 2 and at most 7; in the order of `AllRegions()` the numbers are
3, 3, 5, 5, 2, 4, 3. -/
theorem C14_alias_counts (c : RegionCode) (hc : c ∈ AllRegions) :
    (∀ (textPrepare : String → String) (name : String),
        RegionCodeByName textPrepare name = c ↔ textPrepare name ∈ aliasesOf c) ∧
      (aliasesOf c).Nodup ∧
      2 ≤ (aliasesOf c).length ∧ (aliasesOf c).length ≤ 7 ∧
      AllRegions.map (fun r => (aliasesOf r).length) = [3, 3, 5, 5, 2, 4, 3] := by
  obtain ⟨hAF, hNA, hSA, hOC, hAN, hAS, hEU⟩ := aliasesOf_values
  have hne : c ≠ RegionUnknown := by
    rintro rfl
    exact absurd hc (by decide)
  refine ⟨fun tp name => RegionCodeByName_eq_iff_mem_aliasesOf tp name c hne, ?_, ?_, ?_, ?_⟩
  · simp only [AllRegions, List.mem_cons, List.mem_singleton, List.mem_nil_iff,
      or_false] at hc
    rcases hc with h | h | h | h | h | h | h <;> subst h
    · rw [hAF]; decide
    · rw [hNA]; decide
    · rw [hOC]; decide
    · rw [hAN]; decide
    · rw [hAS]; decide
    · rw [hEU]; decide
    · rw [hSA]; decide
  · simp only [AllRegions, List.mem_cons, List.mem_singleton, List.mem_nil_iff,
      or_false] at hc
    rcases hc with h | h | h | h | h | h | h <;> subst h
    · rw [hAF]; decide
    · rw [hNA]; decide
    · rw [hOC]; decide
    · rw [hAN]; decide
    · rw [hAS]; decide
    · rw [hEU]; decide
    · rw [hSA]; decide
  · simp only [AllRegions, List.mem_cons, List.mem_singleton, List.mem_nil_iff,
      or_false] at hc
    rcases hc with h | h | h | h | h | h | h <;> subst h
    · rw [hAF]; decide
    · rw [hNA]; decide
    · rw [hOC]; decide
    · rw [hAN]; decide
    · rw [hAS]; decide
    · rw [hEU]; decide
    · rw [hSA]; decide
  · simp only [AllRegions, List.map, hAF, hNA, hSA, hOC, hAN, hAS, hEU]
    rfl

theorem C14_alias_counts_witness :
    RegionOC ∈ AllRegions ∧
      ((∀ (textPrepare : String → String) (name : String),
          RegionCodeByName textPrepare name = RegionOC ↔
            textPrepare name ∈ aliasesOf RegionOC) ∧
        (aliasesOf RegionOC).Nodup ∧
        2 ≤ (aliasesOf RegionOC).length ∧ (aliasesOf RegionOC).length ≤ 7 ∧
        AllRegions.map (fun r => (aliasesOf r).length) = [3, 3, 5, 5, 2, 4, 3]) :=
  ⟨by decide, C14_alias_counts RegionOC (by decide)⟩

/-! ## Case folding in the modelled normalisation -/

theorem toUpper_keeps_stripped (ch : Char) :
    (ch.toUpper.isWhitespace || isAsciiPunct ch.toUpper)
      = (ch.isWhitespace || isAsciiPunct ch) := by
  by_cases h : 97 ≤ ch.toNat ∧ ch.toNat ≤ 122
  · have hch : Char.ofNat ch.toNat = ch := Char.ofNat_toNat ch
    obtain ⟨h1, h2⟩ := h
    generalize ch.toNat = n at hch h1 h2
    subst hch
    interval_cases n <;> decide
  · have hup : ch.toUpper = ch := by
      unfold Char.toUpper
      simp only [ge_iff_le]
      rw [if_neg h]
    rw [hup]

theorem textPrepareModel_eq_filter_map (s : String) :
    textPrepareModel s
      = String.mk ((s.toList.map Char.toUpper).filter
          (fun ch => !(ch.isWhitespace || isAsciiPunct ch))) := by
  unfold textPrepareModel
  congr 1
  rw [List.filter_map]
  congr 1
  apply List.filter_congr
  intro ch _
  simp only [Function.comp_apply]
  rw [toUpper_keeps_stripped]

/-- C15: `RegionCodeByName` is case-insensitive for every input.  Two strings that differ
only in the case of ASCII letters (they become equal once `a`..`z` are folded to
`A`..`Z`, character by character) have the same normalised form under the normalisation
the spec describes, and so the same code; in the code itself, the result depends on the
input only through `textPrepare`. -/
theorem C15_case_insensitive (s t : String)
    (h : s.toList.map Char.toUpper = t.toList.map Char.toUpper) :
    textPrepareModel s = textPrepareModel t ∧
      RegionCodeByName textPrepareModel s = RegionCodeByName textPrepareModel t ∧
      (∀ textPrepare : String → String, textPrepare s = textPrepare t →
        RegionCodeByName textPrepare s = RegionCodeByName textPrepare t) := by
  have hp : textPrepareModel s = textPrepareModel t := by
    rw [textPrepareModel_eq_filter_map, textPrepareModel_eq_filter_map, h]
  refine ⟨hp, ?_, ?_⟩
  · simp only [RegionCodeByName, hp]
  · intro tp htp
    simp only [RegionCodeByName, htp]

theorem C15_case_insensitive_witness :
    "oCeAnIa".toList.map Char.toUpper = "OCEANIA".toList.map Char.toUpper ∧
      textPrepareModel "oCeAnIa" = textPrepareModel "OCEANIA" ∧
      RegionCodeByName textPrepareModel "oCeAnIa"
        = RegionCodeByName textPrepareModel "OCEANIA" ∧
      RegionCodeByName textPrepareModel "OCEANIA" = RegionOC :=
  ⟨by decide, (C15_case_insensitive "oCeAnIa" "OCEANIA" (by decide)).1,
    (C15_case_insensitive "oCeAnIa" "OCEANIA" (by decide)).2.1, by decide⟩

/-! ## Range of the lookup, and the name tables -/

theorem RegionCodeByName_unknown_or_mem (textPrepare : String → String) (name : String) :
    RegionCodeByName textPrepare name = RegionUnknown ∨
      RegionCodeByName textPrepare name ∈ AllRegions := by
  unfold RegionCodeByName
  simp only []
  split_ifs
  all_goals first
    | exact Or.inl rfl
    | exact Or.inr (by decide)

theorem mem_AllRegions_of_IsValid (U : String) (c : RegionCode)
    (h : RegionCode.IsValid U c = true) : c ∈ AllRegions := by
  by_contra hm
  exact (IsValid_eq_true_iff U c).1 h (String_of_not_mem U c hm)

theorem String_values (U : String) :
    RegionCode.String U 2 = "Africa" ∧ RegionCode.String U 3 = "North America" ∧
      RegionCode.String U 9 = "Oceania" ∧ RegionCode.String U 999 = "Antarctica" ∧
      RegionCode.String U 142 = "Asia" ∧ RegionCode.String U 150 = "Europe" ∧
      RegionCode.String U 5 = "South America" :=
  ⟨rfl, rfl, rfl, rfl, rfl, rfl, rfl⟩

theorem StringRus_values (U : String) :
    RegionCode.StringRus U 2 = "Африка" ∧
      RegionCode.StringRus U 3 = "Северная Америка" ∧
      RegionCode.StringRus U 9 = "Океания" ∧
      RegionCode.StringRus U 999 = "Антарктика" ∧
      RegionCode.StringRus U 142 = "Азия" ∧
      RegionCode.StringRus U 150 = "Европа" ∧
      RegionCode.StringRus U 5 = "Южная Америка" :=
  ⟨rfl, rfl, rfl, rfl, rfl, rfl, rfl⟩

/-- C16: for every input string, whatever `textPrepare` returns for it, the result of
`RegionCodeByName` is RegionUnknown (0) or a code that occurs in `AllRegions()` and for
which `IsValid` is true; no other integer is ever returned.  `UnknownMsg` is declared
outside `regions.go`; for the `IsValid` part it is assumed to be none of the seven
English region names. -/
theorem C16_lookup_range (UnknownMsg : String)
    (hEn : UnknownMsg ∉ ["Africa", "North America", "Oceania", "Antarctica", "Asia",
      "Europe", "South America"])
    (textPrepare : String → String) (name : String) :
    RegionCodeByName textPrepare name = RegionUnknown ∨
      (RegionCode.IsValid UnknownMsg (RegionCodeByName textPrepare name) = true ∧
        RegionCodeByName textPrepare name ∈ AllRegions) := by
  rcases RegionCodeByName_unknown_or_mem textPrepare name with h | h
  · exact Or.inl h
  · refine Or.inr ⟨?_, h⟩
    rw [IsValid_eq_true_iff]
    intro hs
    exact hEn (hs ▸ String_mem_names UnknownMsg _ h)

theorem C16_lookup_range_witness :
    (RegionCodeByName textPrepareModel "Okeaniya" = RegionUnknown ∨
        (RegionCode.IsValid "Unknown" (RegionCodeByName textPrepareModel "Okeaniya") = true ∧
          RegionCodeByName textPrepareModel "Okeaniya" ∈ AllRegions)) ∧
      RegionCodeByName textPrepareModel "Okeaniya" = 9 :=
  ⟨C16_lookup_range "Unknown" (by decide) textPrepareModel "Okeaniya", by decide⟩

/-- C17: name-to-code lookup inverts code-to-name on the valid codes: for every code `c`
of `AllRegions()`, `RegionCodeByName(c.String()) = c` under the normalisation the spec
describes, which removes the space of "North America" and "South America" and folds the
case, so that every English name becomes a case label of its own code. -/
theorem C17_lookup_inverts_String (UnknownMsg : String) (c : RegionCode)
    (hc : c ∈ AllRegions) :
    RegionCodeByName textPrepareModel (RegionCode.String UnknownMsg c) = c ∧
      textPrepareModel (RegionCode.String UnknownMsg c) ∈ aliasesOf c := by
  have hne : c ≠ RegionUnknown := by
    rintro rfl
    exact absurd hc (by decide)
  have h1 : RegionCodeByName textPrepareModel (RegionCode.String UnknownMsg c) = c := by
    rw [mem_AllRegions_iff] at hc
    obtain ⟨e1, e2, e3, e4, e5, e6, e7⟩ := String_values UnknownMsg
    rcases hc with h | h | h | h | h | h | h <;> subst h
    · rw [e1]; decide
    · rw [e2]; decide
    · rw [e3]; decide
    · rw [e4]; decide
    · rw [e5]; decide
    · rw [e6]; decide
    · rw [e7]; decide
  exact ⟨h1, (RegionCodeByName_eq_iff_mem_aliasesOf _ _ c hne).1 h1⟩

theorem C17_lookup_inverts_String_witness :
    RegionNA ∈ AllRegions ∧
      RegionCode.String "Unknown" RegionNA = "North America" ∧
      textPrepareModel "North America" = "NORTHAMERICA" ∧
      (RegionCodeByName textPrepareModel (RegionCode.String "Unknown" RegionNA) = RegionNA ∧
        textPrepareModel (RegionCode.String "Unknown" RegionNA) ∈ aliasesOf RegionNA) :=
  ⟨by decide, by decide, by decide, C17_lookup_inverts_String "Unknown" RegionNA (by decide)⟩

/-- C18: the name tables are injective on valid codes: for two codes of `AllRegions()`
(in particular for two codes with `IsValid` true), equal English names force equal codes,
and equal Russian names force equal codes. -/
theorem C18_names_injective (UnknownMsg : String) (c d : RegionCode) :
    (c ∈ AllRegions → d ∈ AllRegions →
        (RegionCode.String UnknownMsg c = RegionCode.String UnknownMsg d → c = d) ∧
          (RegionCode.StringRus UnknownMsg c = RegionCode.StringRus UnknownMsg d → c = d)) ∧
      (RegionCode.IsValid UnknownMsg c = true → RegionCode.IsValid UnknownMsg d = true →
        (RegionCode.String UnknownMsg c = RegionCode.String UnknownMsg d → c = d) ∧
          (RegionCode.StringRus UnknownMsg c = RegionCode.StringRus UnknownMsg d → c = d)) := by
  have key : c ∈ AllRegions → d ∈ AllRegions →
      (RegionCode.String UnknownMsg c = RegionCode.String UnknownMsg d → c = d) ∧
        (RegionCode.StringRus UnknownMsg c = RegionCode.StringRus UnknownMsg d → c = d) := by
    intro hc hd
    rw [mem_AllRegions_iff] at hc hd
    obtain ⟨e1, e2, e3, e4, e5, e6, e7⟩ := String_values UnknownMsg
    obtain ⟨r1, r2, r3, r4, r5, r6, r7⟩ := StringRus_values UnknownMsg
    rcases hc with h | h | h | h | h | h | h <;> subst h <;>
      rcases hd with h | h | h | h | h | h | h <;> subst h <;>
      simp only [e1, e2, e3, e4, e5, e6, e7, r1, r2, r3, r4, r5, r6, r7] <;> decide
  exact ⟨key, fun hc hd =>
    key (mem_AllRegions_of_IsValid _ _ hc) (mem_AllRegions_of_IsValid _ _ hd)⟩

theorem C18_names_injective_witness :
    RegionNA ∈ AllRegions ∧ RegionSA ∈ AllRegions ∧
      RegionCode.IsValid "Unknown" RegionNA = true ∧
      RegionCode.IsValid "Unknown" RegionSA = true ∧
      ((RegionCode.String "Unknown" RegionNA = RegionCode.String "Unknown" RegionSA →
          RegionNA = RegionSA) ∧
        (RegionCode.StringRus "Unknown" RegionNA = RegionCode.StringRus "Unknown" RegionSA →
          RegionNA = RegionSA)) ∧
      RegionCode.String "Unknown" RegionNA ≠ RegionCode.String "Unknown" RegionSA ∧
      RegionCode.StringRus "Unknown" RegionNA ≠ RegionCode.StringRus "Unknown" RegionSA :=
  ⟨by decide, by decide, by decide, by decide,
    (C18_names_injective "Unknown" RegionNA RegionSA).1 (by decide) (by decide),
    by decide, by decide⟩
